import Mathlib

/-
Verification development for the Content Room moderation subsystem.

Part A embeds the frontend moderation page (`Frontend/src/pages/Moderation.tsx`,
the `transformResult` helper and the per-branch logic of `handleAnalyze`)
together with the response shapes declared in `Frontend/src/services/api.ts`.
JavaScript falsy-default idioms (`x || d`) are modelled explicitly.

Part B models the backend Moderation Decision Engine (ProviderChain,
ModalityAnalyzer, MultimodalCombiner, DecisionEngine).  The Python source of
that engine is not part of this tree, so each of those definitions is
modelled from the design document (spec.md), as indicated by its doc comment.

Scores are JavaScript / Python numbers carrying decimal values such as 69.9;
they are embedded as rationals.
-/

namespace ContentRoom

/-- The final verdict literal set `ALLOW | FLAG | ESCALATE` (api.ts, spec section 6). -/
inductive Verdict
  | ALLOW
  | FLAG
  | ESCALATE
deriving DecidableEq

/-- The frontend status literal set `safe | warning | unsafe` of the
`ModerationResult` interface in Moderation.tsx.  The third literal is named
`notSafe` here. -/
inductive StatusLabel
  | safe
  | warning
  | notSafe
deriving DecidableEq

/-- JavaScript `x || d` for an optional numeric field: an absent value, or a
present value equal to 0 (falsy), yields the default `d`. -/
def jsOrNum (x : Option ℚ) (d : ℚ) : ℚ :=
  match x with
  | none => d
  | some v => if v = 0 then d else v

/-- JavaScript `x || d` for an optional string field: an absent value, or a
present empty string (falsy), yields the default `d`. -/
def jsOrStr (x : Option String) (d : String) : String :=
  match x with
  | none => d
  | some s => if s = "" then d else s

/-- `ModerationResponse` from api.ts (single-modality moderation response). -/
structure ModerationResponse where
  decision : String
  safety_score : ℚ
  confidence : ℚ
  explanation : String
  flags : List String
  provider : String
  processing_time_ms : ℕ

/-- The `results.image` entry of `MultimodalModerationResponse` in api.ts.
`labels` is optional: Moderation.tsx reads it as `labels || []`. -/
structure MultimodalImageResult where
  is_safe : Bool
  safety_score : ℚ
  labels : Option (List String)

/-- The `results.audio` entry of `MultimodalModerationResponse` in api.ts.
`transcript` and `flags` are read with falsy defaults in Moderation.tsx. -/
structure MultimodalAudioResult where
  transcript : Option String
  safety_score : ℚ
  flags : Option (List String)

/-- `MultimodalModerationResponse` from api.ts. -/
structure MultimodalModerationResponse where
  decision : String
  overall_safety_score : ℚ
  combined_flags : List String
  results_text : Option ModerationResponse
  results_image : Option MultimodalImageResult
  results_audio : Option MultimodalAudioResult

/-- The `fileResults.image` entry of the frontend `ModerationResult`. -/
structure FileImageResult where
  is_safe : Bool
  labels : List String

/-- The `fileResults.audio` entry of the frontend `ModerationResult`. -/
structure FileAudioResult where
  transcript : String
  flags : List String

/-- The `ModerationResult` interface of Moderation.tsx: what the page stores
in state and displays. -/
structure ModerationResult where
  safetyScore : ℚ
  flags : List String
  explanation : String
  status : StatusLabel
  decision : String
  provider : Option String := none
  processingTime : Option ℕ := none
  fileResults_image : Option FileImageResult := none
  fileResults_audio : Option FileAudioResult := none

/-- The multimodal branch of `transformResult` (Moderation.tsx lines 64 to 87):
status is `safe` when `overall_safety_score >= 70`, `warning` when `>= 40`,
otherwise the third literal. -/
def transformResultMulti (multiRes : MultimodalModerationResponse) : ModerationResult :=
  let status : StatusLabel :=
    if multiRes.overall_safety_score ≥ 70 then StatusLabel.safe
    else if multiRes.overall_safety_score ≥ 40 then StatusLabel.warning
    else StatusLabel.notSafe
  { safetyScore := multiRes.overall_safety_score
    flags := multiRes.combined_flags
    explanation := "Multimodal content analyzed. Decision: " ++ multiRes.decision
    status := status
    decision := multiRes.decision
    fileResults_image := multiRes.results_image.map (fun i =>
      { is_safe := i.is_safe, labels := i.labels.getD [] })
    fileResults_audio := multiRes.results_audio.map (fun a =>
      { transcript := a.transcript.getD "", flags := a.flags.getD [] }) }

/-- The single-modality branch of `transformResult` (Moderation.tsx lines 89
to 103): the same 70/40 threshold mapping applied to `safety_score`.  The
`toFixed(0)` rounding of the confidence template is modelled by `round`. -/
def transformResultSingle (singleRes : ModerationResponse) : ModerationResult :=
  let status : StatusLabel :=
    if singleRes.safety_score ≥ 70 then StatusLabel.safe
    else if singleRes.safety_score ≥ 40 then StatusLabel.warning
    else StatusLabel.notSafe
  { safetyScore := singleRes.safety_score
    flags := singleRes.flags
    explanation :=
      if singleRes.explanation = "" then
        "Content analyzed with " ++ toString (round (singleRes.confidence * 100))
          ++ "% confidence."
      else singleRes.explanation
    status := status
    decision := singleRes.decision
    provider := some singleRes.provider
    processingTime := some singleRes.processing_time_ms }

/-- The `video_info` entry of the video moderation response. -/
structure VideoInfo where
  frames_analyzed : ℕ
  duration_seconds : ℚ

/-- The video moderation response as read by Moderation.tsx (all fields are
accessed with falsy defaults or optional casts). -/
structure VideoModerationResponse where
  safety_score : Option ℚ
  flags : Option (List String)
  decision : Option String
  video_info : Option VideoInfo
  provider : Option String

/-- The image moderation response as read by the image-only branch of
`handleAnalyze`: the source casts it to records with optional `is_safe` and
optional `flags` fields. -/
structure ImageModerationResponse where
  safety_score : Option ℚ
  flags : Option (List String)
  is_safe : Option Bool

/-- The audio moderation response as read by the audio-only branch of
`handleAnalyze`. -/
structure AudioModerationResponse where
  safety_score : Option ℚ
  flags : Option (List String)
  transcript : Option String
  decision : Option String

/-- The video-only branch of `handleAnalyze` (Moderation.tsx lines 125 to
143): score defaulted by `safety_score || 100`, thresholds 70/40 on the
defaulted score, decision defaulted by `decision || ALLOW`. -/
def videoOnlyResult (videoRes : VideoModerationResponse) (fileName : String) : ModerationResult :=
  let status : StatusLabel :=
    if jsOrNum videoRes.safety_score 100 ≥ 70 then StatusLabel.safe
    else if jsOrNum videoRes.safety_score 100 ≥ 40 then StatusLabel.warning
    else StatusLabel.notSafe
  let framesInfo : String :=
    match videoRes.video_info with
    | some vi =>
        "Analyzed " ++ toString vi.frames_analyzed ++ " frames from "
          ++ toString vi.duration_seconds ++ "s video."
    | none => ""
  { safetyScore := jsOrNum videoRes.safety_score 100
    flags := videoRes.flags.getD []
    explanation := "Video " ++ fileName ++ " analyzed. " ++ framesInfo
    status := status
    decision := jsOrStr videoRes.decision "ALLOW"
    provider := videoRes.provider }

/-- The image-only branch of `handleAnalyze` (Moderation.tsx lines 144 to
153): status and decision are driven solely by `is_safe !== false`; the
score is only displayed, via `safety_score || 100`. -/
def imageOnlyResult (imageRes : ImageModerationResponse) (fileName : String) : ModerationResult :=
  { safetyScore := jsOrNum imageRes.safety_score 100
    flags := imageRes.flags.getD []
    explanation := "Image " ++ fileName ++ " analyzed."
    status := if imageRes.is_safe ≠ some false then StatusLabel.safe else StatusLabel.notSafe
    decision := if imageRes.is_safe ≠ some false then "ALLOW" else "FLAG" }

/-- The audio-only branch of `handleAnalyze` (Moderation.tsx lines 154 to
165): status is the literal `safe` unconditionally; decision is
`decision || ALLOW`; the transcript explanation truncates at 100 characters. -/
def audioOnlyResult (audioRes : AudioModerationResponse) (fileName : String) : ModerationResult :=
  { safetyScore := jsOrNum audioRes.safety_score 100
    flags := audioRes.flags.getD []
    explanation :=
      match audioRes.transcript with
      | some t =>
          if t = "" then "Audio " ++ fileName ++ " analyzed."
          else "Audio transcribed: " ++ t.take 100
            ++ (if t.length > 100 then "..." else "")
      | none => "Audio " ++ fileName ++ " analyzed."
    status := StatusLabel.safe
    decision := jsOrStr audioRes.decision "ALLOW" }

/-- Modelled from the spec: `RawResult` (section 3) — provider-specific
output with a numeric score in [0,100] (higher is safer), free-form string
flags, and an optional confidence. -/
structure RawResult where
  score : ℚ
  flags : List String
  confidence : Option ℚ

/-- Modelled from the spec: `ModalityResult` (section 3) — the normalized
view of a RawResult. -/
structure ModalityResult where
  score : ℚ
  flags : List String
  confidence : ℚ
  provider : String
  latency_ms : ℕ

/-- Modelled from the spec: `ProviderHandle` (section 3) — a name for
provenance plus an invocation function returning a RawResult or an error. -/
structure ProviderHandle (π : Type) where
  name : String
  invoke : π → Except String RawResult

namespace ProviderChain

/-- Modelled from the spec: `ProviderChain.resolve` (section 4.1) — iterate
the handles in registration order; return the first success together with the
answering provider name, short-circuiting the rest of the chain; if every
handle fails, return the ordered list of (provider name, error) pairs
(the `ChainExhaustedError` payload).  The second component records the names
of the providers actually invoked, in order, for the call-counter property of
section 8. -/
def resolve {π : Type} (handles : List (ProviderHandle π)) (payload : π) :
    Except (List (String × String)) (RawResult × String) × List String :=
  match handles with
  | [] => (Except.error [], [])
  | h :: rest =>
    match h.invoke payload with
    | Except.ok r => (Except.ok (r, h.name), [h.name])
    | Except.error e =>
      let tail := resolve rest payload
      ((match tail.1 with
        | Except.ok x => Except.ok x
        | Except.error errs => Except.error ((h.name, e) :: errs)),
       h.name :: tail.2)

end ProviderChain

/-- Modelled from the spec: score normalization (section 4.2) — values
outside [0,100] are clamped, not rejected. -/
def clampScore (q : ℚ) : ℚ := max 0 (min 100 q)

/-- Modelled from the spec: `ModalityAnalyzer` normalization (section 4.2) —
clamp the score, lower-case and de-duplicate the flags, default a missing
confidence to 0.5, and record the answering provider for provenance. -/
def normalize (raw : RawResult) (providerName : String) (latency : ℕ) : ModalityResult :=
  { score := clampScore raw.score
    flags := (raw.flags.map String.toLower).dedup
    confidence := raw.confidence.getD (1/2)
    provider := providerName
    latency_ms := latency }

/-- Modelled from the spec: `ModalityAnalyzer` (section 4.2) — call
`ProviderChain.resolve` and normalize; on `ChainExhaustedError` return `none`
(no ModalityResult) rather than raising. -/
def analyze {π : Type} (handles : List (ProviderHandle π)) (payload : π)
    (latency : ℕ) : Option ModalityResult :=
  match (ProviderChain.resolve handles payload).1 with
  | Except.ok (raw, name) => some (normalize raw name latency)
  | Except.error _ => none

/-- Modelled from the spec: `Decision` (section 3) — verdict, overall score
(`none` is the sentinel unknown state of section 4.4), combined flags,
explanation, and the per-modality results (`none` for an absent or fully
failed modality). -/
structure Decision where
  verdict : Verdict
  overall_score : Option ℚ
  combined_flags : List String
  explanation : String
  per_modality : List (Option ModalityResult)

namespace DecisionEngine

/-- Modelled from the spec: `DecisionEngine.decide` (section 4.5) — pure
function of (overall_score, combined_flags, unavailable_count,
total_modalities), with the critical-flag set supplied externally
(section 6).  If every requested modality is unavailable the verdict is
`ESCALATE` regardless of score; otherwise a critical flag forces `ESCALATE`
regardless of score; otherwise the 70/40 score bands apply. -/
def decide (critical : List String) (overall_score : ℚ) (combined_flags : List String)
    (unavailable_count total_modalities : ℕ) : Decision :=
  if unavailable_count = total_modalities then
    { verdict := Verdict.ESCALATE
      overall_score := none
      combined_flags := combined_flags
      explanation := "all analysis providers unavailable"
      per_modality := [] }
  else if ∃ f ∈ combined_flags, f ∈ critical then
    { verdict := Verdict.ESCALATE
      overall_score := some overall_score
      combined_flags := combined_flags
      explanation := "critical flag forces escalation"
      per_modality := [] }
  else if overall_score ≥ 70 then
    { verdict := Verdict.ALLOW
      overall_score := some overall_score
      combined_flags := combined_flags
      explanation := "score in the safe band"
      per_modality := [] }
  else if overall_score ≥ 40 then
    { verdict := Verdict.FLAG
      overall_score := some overall_score
      combined_flags := combined_flags
      explanation := "score in the warning band"
      per_modality := [] }
  else
    { verdict := Verdict.ESCALATE
      overall_score := some overall_score
      combined_flags := combined_flags
      explanation := "score below the escalation threshold"
      per_modality := [] }

end DecisionEngine

/-- Modelled from the spec: the present modalities of a combiner input — the
ModalityResults that are not `Unavailable` (section 4.4). -/
def presentResults (results : List (Option ModalityResult)) : List ModalityResult :=
  results.filterMap id

/-- Modelled from the spec: `combined_flags` (section 4.4) — the union of
the flags of all present ModalityResults; an Unavailable modality
contributes nothing. -/
def combinedFlagsOf (results : List (Option ModalityResult)) : List String :=
  ((presentResults results).flatMap ModalityResult.flags).dedup

/-- Minimum of a list of scores; `none` on the empty list. -/
def minScore : List ℚ → Option ℚ
  | [] => none
  | q :: qs => some (qs.foldl min q)

/-- Modelled from the spec: `overall_score` (section 4.4) — the minimum of
the present ModalityResults scores, or the sentinel `none` when every
present modality is Unavailable. -/
def overallScoreOf (results : List (Option ModalityResult)) : Option ℚ :=
  minScore ((presentResults results).map ModalityResult.score)

/-- Modelled from the spec: the `unavailable_count` input of `decide` — the
number of requested modalities whose whole provider chain failed. -/
def unavailableCount (results : List (Option ModalityResult)) : ℕ :=
  results.countP Option.isNone

/-- Modelled from the spec: `MultimodalCombiner` (section 4.4) — combine the
per-modality outcomes of the requested modalities into one Decision via
`DecisionEngine.decide`, keeping the per-modality results for transparency. -/
def combine (critical : List String) (results : List (Option ModalityResult)) : Decision :=
  { DecisionEngine.decide critical ((overallScoreOf results).getD 0)
      (combinedFlagsOf results) (unavailableCount results) results.length with
    overall_score := overallScoreOf results
    per_modality := results }

/-! ### Helper lemmas -/

theorem foldl_min_le_init (qs : List ℚ) (q : ℚ) : qs.foldl min q ≤ q := by
  induction qs generalizing q with
  | nil => exact le_refl q
  | cons a as ih =>
    exact le_trans (ih (min q a)) (min_le_left q a)

theorem foldl_min_le_mem (qs : List ℚ) (q x : ℚ) (hx : x ∈ qs) :
    qs.foldl min q ≤ x := by
  induction qs generalizing q with
  | nil => cases hx
  | cons a as ih =>
    rcases List.mem_cons.mp hx with rfl | hx2
    · exact le_trans (foldl_min_le_init as (min q x)) (min_le_right q x)
    · exact ih (min q a) hx2

theorem foldl_min_mem (qs : List ℚ) (q : ℚ) :
    qs.foldl min q = q ∨ qs.foldl min q ∈ qs := by
  induction qs generalizing q with
  | nil => exact Or.inl rfl
  | cons a as ih =>
    rcases ih (min q a) with h | h
    · rcases le_total q a with hqa | haq
      · exact Or.inl (by rw [List.foldl_cons, h, min_eq_left hqa])
      · exact Or.inr (by rw [List.foldl_cons, h, min_eq_right haq]; exact List.mem_cons_self a as)
    · exact Or.inr (List.mem_cons_of_mem a h)

theorem mem_presentResults {results : List (Option ModalityResult)} {r : ModalityResult} :
    r ∈ presentResults results ↔ some r ∈ results := by
  simp [presentResults, List.mem_filterMap]

theorem combine_verdict (critical : List String) (results : List (Option ModalityResult)) :
    (combine critical results).verdict
      = (DecisionEngine.decide critical ((overallScoreOf results).getD 0)
          (combinedFlagsOf results) (unavailableCount results) results.length).verdict := rfl

theorem combine_explanation (critical : List String) (results : List (Option ModalityResult)) :
    (combine critical results).explanation
      = (DecisionEngine.decide critical ((overallScoreOf results).getD 0)
          (combinedFlagsOf results) (unavailableCount results) results.length).explanation := rfl

theorem combine_overall_score (critical : List String) (results : List (Option ModalityResult)) :
    (combine critical results).overall_score = overallScoreOf results := rfl

theorem combine_combined_flags (critical : List String) (results : List (Option ModalityResult)) :
    (combine critical results).combined_flags = combinedFlagsOf results := by
  show (DecisionEngine.decide critical ((overallScoreOf results).getD 0)
    (combinedFlagsOf results) (unavailableCount results) results.length).combined_flags
    = combinedFlagsOf results
  unfold DecisionEngine.decide
  split_ifs <;> rfl

/-! ### Claims about the frontend moderation page -/

/-- C8: in the image-only branch of `handleAnalyze`, the displayed decision
is `ALLOW` exactly when the response `is_safe` field is not `false`, and
`FLAG` otherwise; the branch never produces `ESCALATE`, and the decision is
independent of the numeric safety score (the 70/40 thresholds are not
consulted). -/
theorem claim_C8 (imageRes : ImageModerationResponse) (fileName : String) :
    ((imageOnlyResult imageRes fileName).decision = "ALLOW" ↔ imageRes.is_safe ≠ some false)
    ∧ ((imageOnlyResult imageRes fileName).decision = "FLAG" ↔ imageRes.is_safe = some false)
    ∧ (imageOnlyResult imageRes fileName).decision ≠ "ESCALATE"
    ∧ (∀ q : Option ℚ,
        (imageOnlyResult { imageRes with safety_score := q } fileName).decision
          = (imageOnlyResult imageRes fileName).decision) := by
  by_cases h : imageRes.is_safe = some false
  · simp [imageOnlyResult, h]
  · simp [imageOnlyResult, h]

/-- C8 witness at a concrete response with `is_safe` absent. -/
theorem claim_C8_witness :
    (imageOnlyResult { safety_score := some 15, flags := some ["gore"], is_safe := none }
      "pic.png").decision = "ALLOW" :=
  (claim_C8 { safety_score := some 15, flags := some ["gore"], is_safe := none }
    "pic.png").1.mpr (by simp)

/-- C9: in the audio-only branch of `handleAnalyze`, the stored status is the
literal `safe` unconditionally (whatever the flags and score), and the
decision defaults to `ALLOW` when the response has no decision field. -/
theorem claim_C9 (audioRes : AudioModerationResponse) (fileName : String) :
    (audioOnlyResult audioRes fileName).status = StatusLabel.safe
    ∧ (audioRes.decision = none →
        (audioOnlyResult audioRes fileName).decision = "ALLOW") := by
  refine ⟨rfl, fun h => ?_⟩
  simp [audioOnlyResult, jsOrStr, h]

/-- C9 witness at a concrete flagged, low-score response with no decision
field. -/
theorem claim_C9_witness :
    (audioOnlyResult
      { safety_score := some 5, flags := some ["hate"], transcript := none, decision := none }
      "clip.mp3").status = StatusLabel.safe
    ∧ (audioOnlyResult
      { safety_score := some 5, flags := some ["hate"], transcript := none, decision := none }
      "clip.mp3").decision = "ALLOW" := by
  have h := claim_C9
    { safety_score := some 5, flags := some ["hate"], transcript := none, decision := none }
    "clip.mp3"
  exact ⟨h.1, h.2 rfl⟩

/-- C10: in the video-only, image-only and audio-only branches of
`handleAnalyze`, a response whose `safety_score` is absent or equal to 0 is
displayed with safety score 100, because the displayed value is computed as
`safety_score || 100`. -/
theorem claim_C10 (videoRes : VideoModerationResponse) (imageRes : ImageModerationResponse)
    (audioRes : AudioModerationResponse) (vName iName aName : String)
    (hv : videoRes.safety_score = none ∨ videoRes.safety_score = some 0)
    (hi : imageRes.safety_score = none ∨ imageRes.safety_score = some 0)
    (ha : audioRes.safety_score = none ∨ audioRes.safety_score = some 0) :
    (videoOnlyResult videoRes vName).safetyScore = 100
    ∧ (imageOnlyResult imageRes iName).safetyScore = 100
    ∧ (audioOnlyResult audioRes aName).safetyScore = 100 := by
  refine ⟨?_, ?_, ?_⟩
  · rcases hv with h | h <;> simp [videoOnlyResult, jsOrNum, h]
  · rcases hi with h | h <;> simp [imageOnlyResult, jsOrNum, h]
  · rcases ha with h | h <;> simp [audioOnlyResult, jsOrNum, h]

/-- C10 witness: an absent video score, a zero image score and a zero audio
score are all displayed as 100. -/
theorem claim_C10_witness :
    (videoOnlyResult
      { safety_score := none, flags := none, decision := none, video_info := none,
        provider := none } "v.mp4").safetyScore = 100
    ∧ (imageOnlyResult
      { safety_score := some 0, flags := none, is_safe := none } "i.png").safetyScore = 100
    ∧ (audioOnlyResult
      { safety_score := some 0, flags := none, transcript := none, decision := none }
      "a.mp3").safetyScore = 100 :=
  claim_C10
    { safety_score := none, flags := none, decision := none, video_info := none,
      provider := none }
    { safety_score := some 0, flags := none, is_safe := none }
    { safety_score := some 0, flags := none, transcript := none, decision := none }
    "v.mp4" "i.png" "a.mp3"
    (Or.inl rfl) (Or.inr rfl) (Or.inr rfl)

/-! ### Claims about the decision mapping -/

/-- C1: for every score in [0,100] the safe/ALLOW band is exactly
`70 ≤ s`, the warning/FLAG band exactly `40 ≤ s < 70`, and the third band
exactly `s < 40`, with exact unrounded boundaries (`decide` maps 70 to
ALLOW, 69.9 to FLAG and 39.9 to ESCALATE); the frontend `transformResult`
applies the same mapping to the multimodal `overall_safety_score` and to the
single-modality `safety_score`. -/
theorem claim_C1 (s : ℚ) (h0 : 0 ≤ s) (h100 : s ≤ 100)
    (multiRes : MultimodalModerationResponse) (singleRes : ModerationResponse)
    (hm : multiRes.overall_safety_score = s) (hs : singleRes.safety_score = s) :
    ((transformResultMulti multiRes).status = StatusLabel.safe ↔ 70 ≤ s)
    ∧ ((transformResultMulti multiRes).status = StatusLabel.warning ↔ 40 ≤ s ∧ s < 70)
    ∧ ((transformResultMulti multiRes).status = StatusLabel.notSafe ↔ s < 40)
    ∧ (transformResultMulti multiRes).status = (transformResultSingle singleRes).status
    ∧ (∀ critical : List String,
        (DecisionEngine.decide critical 70 [] 0 1).verdict = Verdict.ALLOW
        ∧ (DecisionEngine.decide critical (699/10) [] 0 1).verdict = Verdict.FLAG
        ∧ (DecisionEngine.decide critical (399/10) [] 0 1).verdict = Verdict.ESCALATE) := by
  have hstatm : (transformResultMulti multiRes).status =
      (if s ≥ 70 then StatusLabel.safe
       else if s ≥ 40 then StatusLabel.warning else StatusLabel.notSafe) := by
    simp [transformResultMulti, hm]
  have hstats : (transformResultSingle singleRes).status =
      (if s ≥ 70 then StatusLabel.safe
       else if s ≥ 40 then StatusLabel.warning else StatusLabel.notSafe) := by
    simp [transformResultSingle, hs]
  refine ⟨?_, ?_, ?_, ?_, ?_⟩
  · rw [hstatm]; split_ifs with h1 h2 <;> simp_all <;> linarith
  · rw [hstatm]; split_ifs with h1 h2 <;> simp_all <;> constructor <;> intro <;> linarith
  · rw [hstatm]; split_ifs with h1 h2 <;> simp_all <;> linarith
  · rw [hstatm, hstats]
  · intro critical
    refine ⟨?_, ?_, ?_⟩ <;> · unfold DecisionEngine.decide; norm_num

/-- C1 witness at the exact boundary score 70. -/
theorem claim_C1_witness :
    (transformResultMulti
      { decision := "ALLOW", overall_safety_score := 70, combined_flags := [],
        results_text := none, results_image := none, results_audio := none }).status
      = StatusLabel.safe :=
  (claim_C1 70 (by norm_num) (by norm_num)
    { decision := "ALLOW", overall_safety_score := 70, combined_flags := [],
      results_text := none, results_image := none, results_audio := none }
    { decision := "ALLOW", safety_score := 70, confidence := 1, explanation := "ok",
      flags := [], provider := "p", processing_time_ms := 3 }
    rfl rfl).1.mpr (by norm_num)

/-- C2: when every present modality of a request is unavailable, the combined
Decision has verdict ESCALATE with the all-providers-unavailable explanation,
and more generally `decide` escalates whenever the unavailable count equals
the total, regardless of score and flags; the situation yields a defined
Decision (the combiner is a total function), never a fatal error. -/
theorem claim_C2 (critical : List String) (results : List (Option ModalityResult))
    (hall : ∀ r ∈ results, r = none) :
    (combine critical results).verdict = Verdict.ESCALATE
    ∧ (combine critical results).explanation = "all analysis providers unavailable"
    ∧ (∀ (score : ℚ) (flags : List String) (n : ℕ),
        (DecisionEngine.decide critical score flags n n).verdict = Verdict.ESCALATE) := by
  have hcount : unavailableCount results = results.length := by
    refine List.countP_eq_length.mpr ?_
    intro a ha
    rw [hall a ha]
    rfl
  refine ⟨?_, ?_, ?_⟩
  · rw [combine_verdict, hcount]
    unfold DecisionEngine.decide
    simp
  · rw [combine_explanation, hcount]
    unfold DecisionEngine.decide
    simp
  · intro score flags n
    unfold DecisionEngine.decide
    simp

/-- C2 witness: a single-modality request whose provider chain failed. -/
theorem claim_C2_witness :
    (combine ["violence"] [none]).verdict = Verdict.ESCALATE
    ∧ (combine ["violence"] [none]).explanation = "all analysis providers unavailable" := by
  have h := claim_C2 ["violence"] [none] (by simp)
  exact ⟨h.1, h.2.1⟩

/-- C3: whenever `combined_flags` contains a designated critical flag, the
verdict of `decide` is ESCALATE regardless of the numeric score. -/
theorem claim_C3 (critical : List String) (score : ℚ) (flags : List String)
    (u t : ℕ) (hc : ∃ f ∈ flags, f ∈ critical) :
    (DecisionEngine.decide critical score flags u t).verdict = Verdict.ESCALATE := by
  unfold DecisionEngine.decide
  split_ifs with h1 <;> rfl

/-- C3 witness: score 95 (normally ALLOW) with a critical flag escalates;
the same score without the flag is ALLOW. -/
theorem claim_C3_witness :
    (DecisionEngine.decide ["violence"] 95 ["violence"] 0 1).verdict = Verdict.ESCALATE
    ∧ (DecisionEngine.decide ["violence"] 95 [] 0 1).verdict = Verdict.ALLOW := by
  refine ⟨claim_C3 ["violence"] 95 ["violence"] 0 1 ⟨"violence", by simp, by simp⟩, ?_⟩
  unfold DecisionEngine.decide
  norm_num

/-! ### Claims about aggregation and the provider chain -/

/-- C4: for every combiner input with at least one present ModalityResult,
`overall_score` is the minimum of the present scores — it is attained by a
present modality and bounds every present score from below — so a modality
whose whole chain failed is excluded from the aggregation entirely. -/
theorem claim_C4 (critical : List String) (results : List (Option ModalityResult))
    (r : ModalityResult) (hr : some r ∈ results) :
    ∃ m : ℚ, (combine critical results).overall_score = some m
      ∧ (∃ p : ModalityResult, some p ∈ results ∧ p.score = m)
      ∧ (∀ p : ModalityResult, some p ∈ results → m ≤ p.score) := by
  have hrp : r ∈ presentResults results := mem_presentResults.mpr hr
  obtain ⟨a, as, hp⟩ : ∃ a as, presentResults results = a :: as := by
    cases hq : presentResults results with
    | nil => rw [hq] at hrp; cases hrp
    | cons a as => exact ⟨a, as, rfl⟩
  refine ⟨(as.map ModalityResult.score).foldl min a.score, ?_, ?_, ?_⟩
  · rw [combine_overall_score]
    unfold overallScoreOf
    rw [hp]
    rfl
  · rcases foldl_min_mem (as.map ModalityResult.score) a.score with h | h
    · have ha : some a ∈ results := by
        apply mem_presentResults.mp
        rw [hp]
        exact List.mem_cons_self a as
      exact ⟨a, ha, h.symm⟩
    · obtain ⟨p, hpas, hps⟩ := List.mem_map.mp h
      have hpr : some p ∈ results := by
        apply mem_presentResults.mp
        rw [hp]
        exact List.mem_cons_of_mem a hpas
      exact ⟨p, hpr, hps⟩
  · intro p hpr
    have hpc : p ∈ a :: as := by
      rw [← hp]
      exact mem_presentResults.mpr hpr
    rcases List.mem_cons.mp hpc with rfl | hpas
    · exact foldl_min_le_init _ _
    · exact foldl_min_le_mem _ _ _ (List.mem_map.mpr ⟨p, hpas, rfl⟩)

/-- A concrete text ModalityResult with score 90, for the C4 witness. -/
def textR : ModalityResult :=
  { score := 90, flags := [], confidence := 1, provider := "text-provider", latency_ms := 4 }

/-- C4 witness: text score 90 with the image chain fully failed gives
overall score 90 and verdict ALLOW. -/
theorem claim_C4_witness :
    (∃ m : ℚ, (combine [] [some textR, none]).overall_score = some m
      ∧ (∃ p : ModalityResult, some p ∈ [some textR, none] ∧ p.score = m)
      ∧ (∀ p : ModalityResult, some p ∈ [some textR, none] → m ≤ p.score))
    ∧ (combine [] [some textR, none]).overall_score = some 90
    ∧ (combine [] [some textR, none]).verdict = Verdict.ALLOW := by
  refine ⟨claim_C4 [] [some textR, none] textR (by simp), rfl, ?_⟩
  decide

/-- C5: for every provider chain split as `pre ++ k :: post` where every
provider in `pre` fails and `k` succeeds with raw result `r`, `resolve`
returns the success of `k` with provenance `k.name`, and the invoked
providers are exactly `pre` followed by `k` — the providers after `k` are
never invoked. -/
theorem claim_C5 {π : Type} (pre : List (ProviderHandle π)) (k : ProviderHandle π)
    (post : List (ProviderHandle π)) (payload : π) (r : RawResult)
    (hpre : ∀ p ∈ pre, ∃ e, p.invoke payload = Except.error e)
    (hk : k.invoke payload = Except.ok r) :
    ProviderChain.resolve (pre ++ k :: post) payload
      = (Except.ok (r, k.name), pre.map ProviderHandle.name ++ [k.name]) := by
  induction pre with
  | nil => simp [ProviderChain.resolve, hk]
  | cons p ps ih =>
    obtain ⟨e, he⟩ := hpre p (List.mem_cons_self p ps)
    have ih2 := ih (fun q hq => hpre q (List.mem_cons_of_mem p hq))
    simp [ProviderChain.resolve, he, ih2]

/-- A raw result for the chain witnesses. -/
def rawW : RawResult := { score := 88, flags := ["ok"], confidence := some 1 }

/-- A provider that fails, for the chain witnesses. -/
def provFail : ProviderHandle Unit :=
  { name := "primary", invoke := fun _ => Except.error "timeout" }

/-- A provider that succeeds, for the chain witnesses. -/
def provOk : ProviderHandle Unit :=
  { name := "backup", invoke := fun _ => Except.ok rawW }

/-- A provider after the succeeding one, for the chain witnesses. -/
def provSpare : ProviderHandle Unit :=
  { name := "spare", invoke := fun _ => Except.error "x" }

/-- C5 witness: in the chain primary/backup/spare where primary fails and
backup succeeds, the result comes from backup and spare is never invoked. -/
theorem claim_C5_witness :
    ProviderChain.resolve [provFail, provOk, provSpare] ()
      = (Except.ok (rawW, "backup"), ["primary", "backup"]) :=
  claim_C5 [provFail] provOk [provSpare] () rawW
    (by
      intro p hp
      rw [List.mem_singleton] at hp
      subst hp
      exact ⟨"timeout", rfl⟩)
    rfl

/-- C6: when every provider of a chain fails, `resolve` returns the
exhaustion error carrying the ordered list of per-provider (name, error)
pairs — it never silently returns a default — and the ModalityAnalyzer
converts the exhaustion into `none` for the modality instead of propagating
an exception. -/
theorem claim_C6 {π : Type} (handles : List (ProviderHandle π)) (payload : π)
    (errOf : ProviderHandle π → String) (latency : ℕ)
    (hall : ∀ p ∈ handles, p.invoke payload = Except.error (errOf p)) :
    (ProviderChain.resolve handles payload).1
      = Except.error (handles.map (fun p => (p.name, errOf p)))
    ∧ analyze handles payload latency = none := by
  have h1 : (ProviderChain.resolve handles payload).1
      = Except.error (handles.map (fun p => (p.name, errOf p))) := by
    induction handles with
    | nil => rfl
    | cons p ps ih =>
      have hp := hall p (List.mem_cons_self p ps)
      have ih2 := ih (fun q hq => hall q (List.mem_cons_of_mem p hq))
      simp [ProviderChain.resolve, hp, ih2]
  refine ⟨h1, ?_⟩
  unfold analyze
  rw [h1]

/-- A failing primary provider for the C6 witness. -/
def chainFail1 : ProviderHandle Unit :=
  { name := "primary", invoke := fun _ => Except.error "primary-down" }

/-- A failing backup provider for the C6 witness. -/
def chainFail2 : ProviderHandle Unit :=
  { name := "backup", invoke := fun _ => Except.error "backup-down" }

/-- The error each C6 witness provider reports. -/
def errOfW : ProviderHandle Unit → String := fun p => p.name ++ "-down"

/-- C6 witness: a two-provider chain in which both providers fail yields the
ordered error list and a `none` modality result. -/
theorem claim_C6_witness :
    (ProviderChain.resolve [chainFail1, chainFail2] ()).1
      = Except.error [("primary", "primary-down"), ("backup", "backup-down")]
    ∧ analyze [chainFail1, chainFail2] () 7 = none :=
  claim_C6 [chainFail1, chainFail2] () errOfW 7
    (by
      intro p hp
      rcases List.mem_cons.mp hp with rfl | hp2
      · rfl
      · rcases List.mem_cons.mp hp2 with rfl | hp3
        · rfl
        · cases hp3)

/-- C7: `combined_flags` is duplicate-free, a string belongs to it exactly
when some present ModalityResult carries it (an unavailable modality
contributes no flags), and each flag of a normalized ModalityResult is the
lower-casing of a raw provider flag. -/
theorem claim_C7 (critical : List String) (results : List (Option ModalityResult)) :
    (combine critical results).combined_flags.Nodup
    ∧ (∀ x, x ∈ (combine critical results).combined_flags
        ↔ ∃ p : ModalityResult, some p ∈ results ∧ x ∈ p.flags)
    ∧ (∀ (raw : RawResult) (providerName : String) (latency : ℕ),
        ∀ f ∈ (normalize raw providerName latency).flags,
          ∃ g ∈ raw.flags, f = g.toLower) := by
  refine ⟨?_, ?_, ?_⟩
  · rw [combine_combined_flags]
    exact List.nodup_dedup _
  · intro x
    rw [combine_combined_flags]
    unfold combinedFlagsOf
    rw [List.mem_dedup, List.mem_flatMap]
    constructor
    · rintro ⟨p, hp, hx⟩
      exact ⟨p, mem_presentResults.mp hp, hx⟩
    · rintro ⟨p, hp, hx⟩
      exact ⟨p, mem_presentResults.mpr hp, hx⟩
  · intro raw providerName latency f hf
    simp only [normalize, List.mem_dedup, List.mem_map] at hf
    obtain ⟨g, hg, hfg⟩ := hf
    exact ⟨g, hg, hfg.symm⟩

/-- A present result with two flags, for the C7 witness. -/
def resA : ModalityResult :=
  { score := 80, flags := ["hate", "spam"], confidence := 1, provider := "a", latency_ms := 0 }

/-- A second present result sharing a flag, for the C7 witness. -/
def resB : ModalityResult :=
  { score := 50, flags := ["spam"], confidence := 1, provider := "b", latency_ms := 0 }

/-- C7 witness: with two present modalities and one unavailable modality the
combined flag list is duplicate-free. -/
theorem claim_C7_witness :
    (combine [] [some resA, none, some resB]).combined_flags.Nodup :=
  (claim_C7 [] [some resA, none, some resB]).1

end ContentRoom
